import Mathlib

/-!
Verification of the kdb-x-mcp-server-ts core against its specification.

The TypeScript sources are shallowly embedded: JavaScript strings become
`List Char`, JavaScript objects (table rows) become association lists
`List (String-key × value)` in insertion order, thrown `Error` values become
an explicit error type carried through `Except`, and every external effect
(database connection, remote query, embedding provider) is a parameter whose
invocation is recorded in an explicit trace, so that "the code never reaches
the database" is a provable statement.
-/

namespace KdbxMcp

/-- JavaScript strings, embedded as lists of characters. -/
abbrev Str := List Char

/-- Coerce a Lean string literal into the embedding. -/
def str (s : String) : Str := s.toList

/-- A thrown JavaScript `Error`, identified by its `message`. -/
abbrev Err := Str

/-- `String(e)` applied to an `Error e` yields `"Error: " ++ e.message`. -/
def jsErrString (e : Err) : Str := str "Error: " ++ e

/-- ASCII whitespace recognised by `String.prototype.trim`. -/
def isJsWs (c : Char) : Bool :=
  c == ' ' || c == '\t' || c == '\n' || c == '\r'

/-- `s.toUpperCase()`. -/
def strToUpper (s : Str) : Str := s.map Char.toUpper

/-- `s.trim()`: drop whitespace from both ends. -/
def strTrim (s : Str) : Str :=
  ((s.dropWhile isJsWs).reverse.dropWhile isJsWs).reverse

/-- `s.startsWith(p)`. -/
def strStartsWith (s p : Str) : Bool := p.isPrefixOf s

/-- `s.includes(sub)`: `sub` occurs contiguously inside `s`. -/
def strIncludes : Str → Str → Bool
  | s@(_ :: t), sub => sub.isPrefixOf s || strIncludes t sub
  | [], sub => sub.isEmpty

/-- Decimal rendering of a number, as interpolated into template strings. -/
def natStr (n : Nat) : Str := (Nat.repr n).toList

/-- Truthiness of a `string | null` JavaScript value:
`null` and the empty string are falsy. -/
def jsTruthy : Option Str → Bool
  | none => false
  | some s => !s.isEmpty

/-- `v || null` on a `string | null` value: collapse falsy values to `null`. -/
def jsOrNull (v : Option Str) : Option Str :=
  match v with
  | none => none
  | some s => if s.isEmpty then none else some s

/-! ## Row values

Cells of a table row.  `dateV` stands for a temporal value carrying its
ISO-8601 rendering (`toISOString`); the other constructors are opaque
payloads that the embedded code never inspects. -/

inductive Val where
  | strV (s : Str)
  | num (n : Int)
  | dateV (iso : Str)
  | other (tag : Nat)
deriving DecidableEq, Repr

/-- A JavaScript row object: column-name/value pairs in insertion order
(object keys are unique, and iteration order is insertion order). -/
abbrev Row := List (Str × Val)

/-! ## QueryExecutor (`src/prompts` part: `kdbx-run-sql-query`, `runQueryImpl`) -/

/-- `MAX_ROWS_RETURNED` from `kdbx-run-sql-query.ts`. -/
def MAX_ROWS_RETURNED : Nat := 1000

/-- The `dangerousKeywords` denylist of `runQueryImpl`. -/
def dangerousKeywords : List Str :=
  [str "INSERT", str "DROP", str "DELETE", str "TRUNCATE", str "ALTER", str "CREATE"]

/-- The shape returned by the opaque remote call: `{rowCount, data}`
(`result.rowCount || 0` and `result.data || []` defaults already applied). -/
structure RemoteResult where
  rowCount : Nat
  data : List Row
deriving Repr

inductive Status where
  | success
  | error
deriving DecidableEq, Repr

/-- The `QueryResult` interface of `kdbx-run-sql-query.ts`. -/
structure QueryResult where
  status : Status
  data : Option (List Row)
  message : Option Str
  error_type : Option Str
  technical_details : Option Str
deriving Repr

/-- The `catch` handler of `runQueryImpl`: classify errors mentioning the
`.s.e` SQL-interface marker, otherwise return the stringified error. -/
def runQueryCatch (e : Err) : QueryResult :=
  if strIncludes e (str ".s.e") then
    { status := .error
      data := none
      message := some (str "It looks like the SQL interface is not loaded in the KDB-X database. Please initialize it by running `.s.init[]` in your KDB-X session, or contact your system administrator.")
      error_type := some (str "sql_interface_not_loaded")
      technical_details := some (jsErrString e) }
  else
    { status := .error, data := none, message := some (jsErrString e)
      error_type := none, technical_details := none }

/-- The post-gate part of `runQueryImpl`: process the remote call's outcome
(the remote call covers `getKDBConnection` plus `conn.query`).  Note the
code returns `result.data` as-is in the truncation branch; no client-side
slice is performed. -/
def executeRemote (remote : Except Err RemoteResult) : QueryResult :=
  match remote with
  | .error e => runQueryCatch e
  | .ok result =>
    let total := result.rowCount
    if total = 0 then
      { status := .success, data := some [], message := some (str "No rows returned")
        error_type := none, technical_details := none }
    else
      let rows := result.data
      if total > MAX_ROWS_RETURNED then
        { status := .success, data := some rows
          message := some (str "Showing first " ++ natStr MAX_ROWS_RETURNED ++
            str " of " ++ natStr total ++ str " rows")
          error_type := none, technical_details := none }
      else
        { status := .success, data := some rows, message := none
          error_type := none, technical_details := none }

/-- `runQueryImpl` of `kdbx-run-sql-query.ts`.  The returned `Bool` records
whether execution reached the database (`getKDBConnection` / `conn.query`);
the dangerous-keyword gate throws before either, and the thrown error is
caught by the function's own `catch`. -/
def runQueryImpl (sqlSelectQuery : Str) (remote : Except Err RemoteResult) :
    QueryResult × Bool :=
  let queryUpper := strTrim (strToUpper sqlSelectQuery)
  match dangerousKeywords.find? (fun keyword =>
      strIncludes queryUpper keyword && !strStartsWith queryUpper (str "SELECT")) with
  | some keyword =>
      (runQueryCatch (str "Query contains dangerous keyword: " ++ keyword), false)
  | none => (executeRemote remote, true)

/-! ## DatabaseConnection (`utils/kdbx.ts`) -/

/-- A `KDBConnectionImpl` object.  `id` is its allocation identity
(`new KDBConnectionImpl(config)` yields a fresh object); `connected` is the
private flag, initialised to `false` by the constructor. -/
structure Conn where
  id : Nat
  connected : Bool
deriving DecidableEq, Repr

/-- The module-level mutable state of `utils/kdbx.ts`: the
`cachedConnection` variable, plus an allocation counter supplying fresh
object identities. -/
structure KState where
  cached : Option Conn
  nextId : Nat
deriving DecidableEq, Repr

/-- Outcome of one run of the `for` retry loop of `getKDBConnection`.
`attempts` counts executions of the `try` block, `sleeps` lists the
`setTimeout` delays (in ms) awaited between attempts, in order. -/
structure LoopOut where
  attempts : Nat
  sleeps : List Nat
  result : Except Err Conn
deriving Repr

/-- The retry loop of `getKDBConnection`
(`for (let attempt = 1; attempt <= config.retry + 1; attempt++)`).
`fail attempt = some e` means the `try` body of that attempt throws `e`
(the fallible connect step); `none` means it completes, caching and
returning `conn`.  After the loop, `throw lastError || new Error(...)`.
The first argument is the number of loop iterations still allowed
(`total + 1 - attempt`, so the loop is entered with `remaining = total`);
it makes the recursion structural without changing the iteration count. -/
def connectLoop (fail : Nat → Option Err) (conn : Conn) (total : Nat) :
    Nat → Nat → Option Err → LoopOut
  | 0, _attempt, lastError =>
    { attempts := 0, sleeps := []
      result := .error (lastError.getD (str "Failed to connect to KDB-X")) }
  | remaining + 1, attempt, _lastError =>
    match fail attempt with
    | none => { attempts := 1, sleeps := [], result := .ok conn }
    | some e =>
      let rest := connectLoop fail conn total remaining (attempt + 1) (some e)
      { attempts := rest.attempts + 1
        sleeps := (if attempt < total then [1000 * attempt] else []) ++ rest.sleeps
        result := rest.result }
  -- `lastError` is threaded so the post-loop `throw` can surface the most
  -- recent failure; the unused-`lastError` base case is the loop exit.

/-- Result of `getKDBConnection`: whether the cached handle was returned,
the connect attempts and sleeps performed, the outcome, and the module
state afterwards. -/
structure AcquireOut where
  usedCache : Bool
  attempts : Nat
  sleeps : List Nat
  result : Except Err Conn
  state : KState
deriving Repr

/-- The fresh-connect path of `getKDBConnection`: construct a new
`KDBConnectionImpl` (constructor leaves `connected := false`; the actual
connect call is a placeholder) and run the retry loop; a successful attempt
assigns `cachedConnection = conn`. -/
def freshAcquire (st : KState) (retry : Nat) (fail : Nat → Option Err) : AcquireOut :=
  let conn : Conn := { id := st.nextId, connected := false }
  let out := connectLoop fail conn (retry + 1) (retry + 1) 1 none
  { usedCache := false
    attempts := out.attempts
    sleeps := out.sleeps
    result := out.result
    state :=
      match out.result with
      | .ok c => { cached := some c, nextId := st.nextId + 1 }
      | .error _ => { cached := st.cached, nextId := st.nextId + 1 } }

/-- `getKDBConnection(config, logger)`: return the cached connection when it
exists and reports connected, otherwise run the connect sequence with
retries.  `retry` is `config.retry`. -/
def getKDBConnection (st : KState) (retry : Nat) (fail : Nat → Option Err) : AcquireOut :=
  match st.cached with
  | some c =>
    if c.connected then
      { usedCache := true, attempts := 0, sleeps := [], result := .ok c, state := st }
    else
      freshAcquire st retry fail
  | none => freshAcquire st retry fail

/-- `cleanupKDBConnection()`: close the cached connection if any and null
out the cache. -/
def cleanupKDBConnection (st : KState) : KState :=
  match st.cached with
  | some _ => { cached := none, nextId := st.nextId }
  | none => st

/-- The expected backoff sleep sequence: `backoffFrom a k` lists the delays
`1000*a, 1000*(a+1), …` for `k` consecutive failed attempts starting at
attempt number `a`. -/
def backoffFrom : Nat → Nat → List Nat
  | _, 0 => []
  | a, k + 1 => 1000 * a :: backoffFrom (a + 1) k

/-! ## EmbeddingConfigLookup (`utils/embeddings-helpers.ts`)

A parsed CSV record.  The `csv-parse` options (`columns: true`, `cast` of
`''` to `null`) make every field a `string | null`; the parsed record list
for a given path is cached for the process lifetime, so both arguments of a
repeated lookup see the same records. -/

structure CsvRow where
  table : Option Str
  embedding_column : Option Str
  embedding_provider : Option Str
  embedding_model : Option Str
  sparse_embedding_column : Option Str
  sparse_index_name : Option Str
  sparse_tokenizer_provider : Option Str
  sparse_tokenizer_model : Option Str
deriving DecidableEq, Repr

/-- The `EmbeddingConfig` interface. -/
structure EmbeddingConfig where
  embeddingColumn : Option Str
  embeddingProvider : Option Str
  embeddingModel : Option Str
  sparseEmbeddingColumn : Option Str
  sparseIndexName : Option Str
  sparseTokenizerProvider : Option Str
  sparseTokenizerModel : Option Str
deriving DecidableEq, Repr

/-- The field mapping of `getEmbeddingConfig` on its single matching row:
each CSV field goes through `row.f || null`. -/
def mapCsvRow (row : CsvRow) : EmbeddingConfig :=
  { embeddingColumn := jsOrNull row.embedding_column
    embeddingProvider := jsOrNull row.embedding_provider
    embeddingModel := jsOrNull row.embedding_model
    sparseEmbeddingColumn := jsOrNull row.sparse_embedding_column
    sparseIndexName := jsOrNull row.sparse_index_name
    sparseTokenizerProvider := jsOrNull row.sparse_tokenizer_provider
    sparseTokenizerModel := jsOrNull row.sparse_tokenizer_model }

/-- The rows of the parsed CSV whose `table` field strictly equals the
requested name (`row.table === table`). -/
def matchingRows (table : Str) (df : List CsvRow) : List CsvRow :=
  df.filter (fun row => row.table == some table)

/-- The single-quote character (code point 39), as interpolated around the
table name in the lookup error messages. -/
def sq : Str := [Char.ofNat 39]

/-- The error message thrown when no configuration row matches. -/
def noConfigMsg (table : Str) : Str :=
  str "No configuration found for table=" ++ sq ++ table ++ sq

/-- The error message thrown when several configuration rows match. -/
def multiConfigMsg (table : Str) : Str :=
  str "Multiple configurations found for table=" ++ sq ++ table ++ sq ++
    str ". Please ensure each table has only one configuration row."

/-- `getEmbeddingConfig(table, config)` over the cached parsed CSV `df`:
zero matching rows and more than one matching row both throw; exactly one
matching row is mapped onto an `EmbeddingConfig`. -/
def getEmbeddingConfig (table : Str) (df : List CsvRow) : Except Err EmbeddingConfig :=
  match matchingRows table df with
  | [] => .error (noConfigMsg table)
  | [row] => .ok (mapCsvRow row)
  | _ :: _ :: _ => .error (multiConfigMsg table)

/-! ## ResultFormatter (`utils/format-utils.ts`) -/

/-- `col in row`: the row object has the column. -/
def hasKey (row : Row) (k : Str) : Bool := row.any (fun kv => kv.1 == k)

/-- `delete row[k]` on an object: remove the column named `k` (object keys
are unique; remaining columns keep their values and relative order). -/
def eraseKey (k : Str) (row : Row) : Row := row.filter (fun kv => !(kv.1 == k))

/-- One `if (col && col in newRow) delete newRow[col]` block of
`removeVectorColumns`. -/
def delStep (c : Option Str) (row : Row) : Row :=
  if jsTruthy c && hasKey row (c.getD []) then eraseKey (c.getD []) row else row

/-- The per-row body of `removeVectorColumns`: copy the row, then delete the
dense and then the sparse embedding column when configured and present. -/
def removeRow (ec sc : Option Str) (row : Row) : Row :=
  delStep sc (delStep ec row)

/-- `removeVectorColumns(data, tableName, config, logger)`: look up the
table's embedding config; on lookup failure return the data unchanged,
otherwise map each row through the column removal. -/
def removeVectorColumns (data : List Row) (tableName : Str) (df : List CsvRow) :
    List Row :=
  match getEmbeddingConfig tableName df with
  | .error _ => data
  | .ok embeddingConfig =>
    data.map (removeRow embeddingConfig.embeddingColumn embeddingConfig.sparseEmbeddingColumn)

/-- The per-cell conversion of `normalizeSearchResult`: temporal values are
replaced by their `toISOString()` rendering, everything else passes
through. -/
def normalizeVal : Val → Val
  | .dateV iso => .strV iso
  | v => v

/-- `normalizeSearchResult(data, tableName, config, logger)`. -/
def normalizeSearchResult (data : List Row) (tableName : Str) (df : List CsvRow) :
    List Row :=
  let normalized := data.map (fun row => row.map (fun kv => (kv.1, normalizeVal kv.2)))
  removeVectorColumns normalized tableName df

/-! ### Heap model of `removeVectorColumns`

To state what the function does to object identity, rows live in a heap
(a list of row objects, addressed by index) and the function receives
addresses.  `\x7b...row\x7d` allocates a fresh object, `delete` mutates only
that fresh copy, and the `catch` fallback returns the original addresses. -/

/-- The `data.map(...)` body over addresses: for each input address, read
the row, allocate a fresh object holding the column-stripped copy, and
return the fresh address. -/
def rvcHeapGo (ec sc : Option Str) : List Row → List Nat → List Row × List Nat
  | heap, [] => (heap, [])
  | heap, id :: rest =>
    let row := heap.getD id []
    let heap1 := heap ++ [removeRow ec sc row]
    let out := rvcHeapGo ec sc heap1 rest
    (out.1, heap.length :: out.2)

/-- `removeVectorColumns` over the heap: the success path allocates fresh
copies; the lookup-failure path returns the input addresses unchanged. -/
def removeVectorColumnsHeap (heap : List Row) (ids : List Nat) (tableName : Str)
    (df : List CsvRow) : List Row × List Nat :=
  match getEmbeddingConfig tableName df with
  | .error _ => (heap, ids)
  | .ok embeddingConfig =>
    rvcHeapGo embeddingConfig.embeddingColumn embeddingConfig.sparseEmbeddingColumn heap ids

/-! ## SearchOrchestrator (`kdbx-sim-search.ts`): hybrid search

Every external effect of `kdbxHybridSearchImpl` is a parameter, and the function
additionally returns how often each effect was invoked, so that "without
calling any embedding provider" is a statement about the returned trace. -/

/-- The `SearchResult` interface of `kdbx-sim-search.ts`. -/
structure SearchResult where
  status : Status
  table : Option Str
  recordsCount : Option Nat
  records : Option (List Row)
  message : Option Str
deriving DecidableEq, Repr

/-- Outcomes of the external calls made by hybrid search.  `getProviderR`
is `getProvider(name)` (throws on unknown name, otherwise returns the
provider, abstracted to its name); `denseEmbedR`/`sparseEmbedR` are the two
embedding computations; `connR` is `getKDBConnection`; `queryR` is
`conn.query`, whose value is `null` or a row array. -/
structure HybridEffects where
  getProviderR : Str → Except Err Str
  denseEmbedR : Except Err Unit
  sparseEmbedR : Except Err Unit
  connR : Except Err Unit
  queryR : Except Err (Option (List Row))

/-- How often each external call was made during one invocation. -/
structure HTrace where
  providerLookups : Nat
  denseCalls : Nat
  sparseCalls : Nat
  connectCalls : Nat
  remoteCalls : Nat
deriving DecidableEq, Repr

/-- The trace of an invocation that made no external call at all. -/
def emptyTrace : HTrace :=
  { providerLookups := 0, denseCalls := 0, sparseCalls := 0
    connectCalls := 0, remoteCalls := 0 }

/-- The `catch` handler shared by both search functions:
`{status: 'error', message: String(e), table: tableName}`. -/
def hybridCatch (tableName : Str) (e : Err) : SearchResult :=
  { status := .error, table := some tableName, recordsCount := none
    records := none, message := some (jsErrString e) }

/-- The soft-failure message returned when the table has no sparse index. -/
def sparseSoftMsg : Str := str "The requested table does not have sparse index"

/-- The soft-failure result for a table without a sparse index. -/
def sparseSoftResult (tableName : Str) : SearchResult :=
  { status := .error, table := some tableName, recordsCount := none
    records := none, message := some sparseSoftMsg }

/-- The success result for an empty hybrid search outcome. -/
def emptyHybridResult (tableName : Str) : SearchResult :=
  { status := .success, table := some tableName, recordsCount := some 0
    records := some []
    message := some (str "No results found - the sparse search returned no matches for the query") }

/-- `kdbxHybridSearchImpl(tableName, query, n, config, logger)` over the
cached embeddings CSV `df` and the external-call outcomes `eff`. -/
def kdbxHybridSearchImpl (tableName : Str) (df : List CsvRow) (eff : HybridEffects) :
    SearchResult × HTrace :=
  match getEmbeddingConfig tableName df with
  | .error e => (hybridCatch tableName e, emptyTrace)
  | .ok embeddingConfig =>
    if !jsTruthy embeddingConfig.sparseIndexName then
      (sparseSoftResult tableName, emptyTrace)
    else if !jsTruthy embeddingConfig.embeddingProvider ||
        !jsTruthy embeddingConfig.embeddingModel then
      (hybridCatch tableName
        (str "Table " ++ tableName ++ str " does not have embedding configuration"),
       emptyTrace)
    else
      match eff.getProviderR (embeddingConfig.embeddingProvider.getD []) with
      | .error e => (hybridCatch tableName e, { emptyTrace with providerLookups := 1 })
      | .ok denseProvider =>
        let lookups :=
          if embeddingConfig.sparseTokenizerProvider == embeddingConfig.embeddingProvider
          then 1 else 2
        let sparseProviderR :=
          if embeddingConfig.sparseTokenizerProvider == embeddingConfig.embeddingProvider
          then .ok denseProvider
          else eff.getProviderR
            ((jsOrNull embeddingConfig.sparseTokenizerProvider).getD
              (embeddingConfig.embeddingProvider.getD []))
        match sparseProviderR with
        | .error e =>
          (hybridCatch tableName e, { emptyTrace with providerLookups := lookups })
        | .ok _sparseProvider =>
          match eff.denseEmbedR with
          | .error e =>
            (hybridCatch tableName e,
             { emptyTrace with providerLookups := lookups, denseCalls := 1 })
          | .ok _ =>
            match eff.sparseEmbedR with
            | .error e =>
              (hybridCatch tableName e,
               { emptyTrace with
                  providerLookups := lookups, denseCalls := 1, sparseCalls := 1 })
            | .ok _ =>
              match eff.connR with
              | .error e =>
                (hybridCatch tableName e,
                 { emptyTrace with
                    providerLookups := lookups, denseCalls := 1, sparseCalls := 1,
                    connectCalls := 1 })
              | .ok _ =>
                let fullTrace : HTrace :=
                  { providerLookups := lookups, denseCalls := 1, sparseCalls := 1
                    connectCalls := 1, remoteCalls := 1 }
                match eff.queryR with
                | .error e => (hybridCatch tableName e, fullTrace)
                | .ok none => (emptyHybridResult tableName, fullTrace)
                | .ok (some rows) =>
                  if rows.isEmpty then (emptyHybridResult tableName, fullTrace)
                  else
                    let normalized := normalizeSearchResult rows tableName df
                    ({ status := .success, table := some tableName
                       recordsCount := some normalized.length
                       records := some normalized, message := none },
                     fullTrace)

/-- Column names removed by `removeRow`: the configured dense and sparse
embedding columns, when configured (truthy). -/
def removedKeys (ec sc : Option Str) (k : Str) : Bool :=
  (jsTruthy ec && (k == ec.getD [])) || (jsTruthy sc && (k == sc.getD []))

/-- A sample embeddings-CSV row for the table "docs": dense embedding in
column "vec", no sparse index. -/
def docsCsvRow : CsvRow :=
  { table := some (str "docs")
    embedding_column := some (str "vec")
    embedding_provider := some (str "openai")
    embedding_model := some (str "m1")
    sparse_embedding_column := none
    sparse_index_name := none
    sparse_tokenizer_provider := none
    sparse_tokenizer_model := none }

/-- A one-object heap: a single row with a text column and the dense
embedding column "vec". -/
def specimenHeap : List Row :=
  [[(str "text", Val.strV (str "hi")), (str "vec", Val.other 0)]]

/-- External-call outcomes in which every call succeeds and the remote
search returns `null`. -/
def benignEffects : HybridEffects :=
  { getProviderR := fun n => .ok n
    denseEmbedR := .ok ()
    sparseEmbedR := .ok ()
    connR := .ok ()
    queryR := .ok none }

/-- The `host:port` rendering of a database configuration target, as it
appears in the connection log line (`Connecting to KDB at host:port`). -/
def hostPortStr (host : Str) (port : Nat) : Str := host ++ str ":" ++ natStr port

/-- A remote outcome reporting a row count of 1500 while carrying 1001 row
objects in its `data` field. -/
def oversizedRemote : RemoteResult :=
  { rowCount := 1500
    data := (List.range 1001).map (fun i => [(str "row", Val.num i)]) }

/-! ## Theorems -/

/-- Both branches of the query catch handler report an error status. -/
theorem runQueryCatch_status (e : Err) : (runQueryCatch e).status = .error := by
  unfold runQueryCatch
  split <;> rfl

/-- C1: the SQL safety gate rejects exactly the right queries.  If the
upper-cased trimmed query contains a denylisted keyword and does not start
with SELECT, `runQueryImpl` returns status error and never reaches the
database connection or remote call; if it starts with SELECT, the gate
never rejects and execution proceeds to the remote call. -/
theorem runQueryImpl_safety_gate (q : Str) (remote : Except Err RemoteResult) :
    (dangerousKeywords.any (fun kw => strIncludes (strTrim (strToUpper q)) kw) = true →
      strStartsWith (strTrim (strToUpper q)) (str "SELECT") = false →
      (runQueryImpl q remote).1.status = .error ∧ (runQueryImpl q remote).2 = false) ∧
    (strStartsWith (strTrim (strToUpper q)) (str "SELECT") = true →
      runQueryImpl q remote = (executeRemote remote, true)) := by
  constructor
  · intro hany hsel
    have hsome : (dangerousKeywords.find? (fun keyword =>
        strIncludes (strTrim (strToUpper q)) keyword &&
          !strStartsWith (strTrim (strToUpper q)) (str "SELECT"))).isSome := by
      rw [List.find?_isSome]
      obtain ⟨kw, hmem, hinc⟩ := List.any_eq_true.mp hany
      exact ⟨kw, hmem, by simp [hinc, hsel]⟩
    obtain ⟨kw, hfind⟩ := Option.isSome_iff_exists.mp hsome
    simp only [runQueryImpl, hfind]
    exact ⟨runQueryCatch_status _, trivial⟩
  · intro hsel
    have hnone : (dangerousKeywords.find? (fun keyword =>
        strIncludes (strTrim (strToUpper q)) keyword &&
          !strStartsWith (strTrim (strToUpper q)) (str "SELECT"))) = none := by
      rw [List.find?_eq_none]
      intro kw _
      simp [hsel]
    simp only [runQueryImpl, hnone]

/-- Concrete instance of the safety gate theorem: a DROP statement is
rejected without touching the database, and a SELECT containing CREATE as a
substring goes through to the remote call. -/
theorem runQueryImpl_safety_gate_witness :
    ((runQueryImpl (str "DROP TABLE users") (.ok ⟨0, []⟩)).1.status = .error ∧
      (runQueryImpl (str "DROP TABLE users") (.ok ⟨0, []⟩)).2 = false) ∧
    runQueryImpl (str "select id from logs where action = CREATED") (.ok ⟨0, []⟩) =
      (executeRemote (.ok ⟨0, []⟩), true) :=
  ⟨(runQueryImpl_safety_gate (str "DROP TABLE users") (.ok ⟨0, []⟩)).1
      (by decide) (by decide),
   (runQueryImpl_safety_gate (str "select id from logs where action = CREATED")
      (.ok ⟨0, []⟩)).2 (by decide)⟩

/-- On a remote result with more rows reported than the cap, the executor
returns the remote data unchanged together with the truncation message. -/
theorem executeRemote_overflow (r : RemoteResult) (h0 : ¬ r.rowCount = 0)
    (hgt : r.rowCount > MAX_ROWS_RETURNED) :
    executeRemote (.ok r) =
      { status := .success, data := some r.data
        message := some (str "Showing first " ++ natStr MAX_ROWS_RETURNED ++
          str " of " ++ natStr r.rowCount ++ str " rows")
        error_type := none, technical_details := none } := by
  unfold executeRemote
  dsimp only
  rw [if_neg h0, if_pos hgt]

set_option maxRecDepth 8000 in
/-- C2 (code bug): at a remote result reporting 1500 rows whose `data`
holds 1001 rows, `runQueryImpl` answers success with the message
"Showing first 1000 of 1500 rows" while its `data` field carries all 1001
rows — no client-side truncation to the first 1000 rows takes place (the
cap `MAX_ROWS_RETURNED` is also never transmitted to the remote call). -/
theorem runQueryImpl_rowcap_divergence :
    runQueryImpl (str "SELECT id FROM trades") (.ok oversizedRemote) =
      ({ status := .success, data := some oversizedRemote.data
         message := some (str "Showing first 1000 of 1500 rows")
         error_type := none, technical_details := none }, true) ∧
    oversizedRemote.data.length = 1001 := by
  constructor
  · have hnone : (dangerousKeywords.find? (fun keyword =>
        strIncludes (strTrim (strToUpper (str "SELECT id FROM trades"))) keyword &&
          !strStartsWith (strTrim (strToUpper (str "SELECT id FROM trades")))
            (str "SELECT"))) = none := by decide
    simp only [runQueryImpl, hnone]
    rw [executeRemote_overflow oversizedRemote (by decide) (by decide)]
    rfl
  · decide

/-- The retry loop runs at most as many attempts as it has iterations
left. -/
theorem connectLoop_attempts_le (fail : Nat → Option Err) (conn : Conn) (total : Nat) :
    ∀ remaining attempt le,
      (connectLoop fail conn total remaining attempt le).attempts ≤ remaining := by
  intro remaining
  induction remaining with
  | zero => intro attempt le; simp [connectLoop]
  | succ n ih =>
    intro attempt le
    cases hf : fail attempt with
    | none => simp [connectLoop, hf]
    | some e =>
      simp only [connectLoop, hf]
      have h := ih (attempt + 1) (some e)
      exact Nat.succ_le_succ h

/-- If attempt `a` is the first to succeed, the loop stops there: it made
`a` attempts counting from `attempt`, slept `1000·b` ms after each failed
attempt `b`, and returns the connection. -/
theorem connectLoop_first_success (fail : Nat → Option Err) (conn : Conn) (total : Nat)
    (a : Nat) (ha : fail a = none) (haT : a ≤ total) :
    ∀ remaining attempt le, attempt + remaining = total + 1 → attempt ≤ a →
      (∀ b, attempt ≤ b → b < a → fail b ≠ none) →
      connectLoop fail conn total remaining attempt le =
        { attempts := a + 1 - attempt
          sleeps := backoffFrom attempt (a - attempt)
          result := .ok conn } := by
  intro remaining
  induction remaining with
  | zero => intro attempt le hinv hle hprev; omega
  | succ n ih =>
    intro attempt le hinv hle hprev
    by_cases heq : attempt = a
    · subst heq
      simp only [connectLoop, ha]
      have h1' : attempt + 1 - attempt = 1 := by omega
      have h2' : attempt - attempt = 0 := by omega
      rw [h1', h2']
      simp [backoffFrom]
    · have hlt : attempt < a := Nat.lt_of_le_of_ne hle heq
      have hfa : ∃ e, fail attempt = some e := by
        cases hfx : fail attempt with
        | none => exact absurd hfx (hprev attempt (Nat.le_refl _) hlt)
        | some e => exact ⟨e, rfl⟩
      obtain ⟨e, hfa⟩ := hfa
      simp only [connectLoop, hfa]
      rw [ih (attempt + 1) (some e) (by omega) (by omega)
        (fun b hb1 hb2 => hprev b (by omega) hb2)]
      have hsl : attempt < total := by omega
      rw [if_pos hsl]
      have h3' : a + 1 - attempt = (a + 1 - (attempt + 1)) + 1 := by omega
      have h4' : a - attempt = (a - (attempt + 1)) + 1 := by omega
      rw [h3', h4']
      simp [backoffFrom]

/-- If every attempt from `attempt` through `total` fails, the loop runs
all remaining iterations, sleeping after each but the last, and surfaces
the error of attempt `total`. -/
theorem connectLoop_all_fail (fail : Nat → Option Err) (conn : Conn) (total : Nat)
    (e : Err) (he : fail total = some e) :
    ∀ remaining attempt le, attempt + remaining = total + 1 → 1 ≤ remaining →
      (∀ b, attempt ≤ b → b ≤ total → fail b ≠ none) →
      connectLoop fail conn total remaining attempt le =
        { attempts := remaining, sleeps := backoffFrom attempt (remaining - 1)
          result := .error e } := by
  intro remaining
  induction remaining with
  | zero => intro attempt le hinv h1 hall; omega
  | succ n ih =>
    intro attempt le hinv h1 hall
    by_cases hn : n = 0
    · subst hn
      have hat : attempt = total := by omega
      subst hat
      simp only [connectLoop, he]
      simp [backoffFrom]
    · have hlt : attempt < total := by omega
      have hfa : ∃ e1, fail attempt = some e1 := by
        cases hfx : fail attempt with
        | none => exact absurd hfx (hall attempt (Nat.le_refl _) (by omega))
        | some e1 => exact ⟨e1, rfl⟩
      obtain ⟨e1, hfa⟩ := hfa
      simp only [connectLoop, hfa]
      rw [ih (attempt + 1) (some e1) (by omega) (by omega)
        (fun b hb1 hb2 => hall b (by omega) hb2)]
      rw [if_pos hlt]
      have hn1 : n + 1 - 1 = (n - 1) + 1 := by omega
      rw [hn1]
      simp [backoffFrom]

/-- When no valid cached connection exists, `getKDBConnection` takes the
fresh-connect path. -/
theorem getKDBConnection_no_cache (st : KState) (retry : Nat) (fail : Nat → Option Err)
    (hcache : ∀ c, st.cached = some c → c.connected = false) :
    getKDBConnection st retry fail = freshAcquire st retry fail := by
  unfold getKDBConnection
  cases hc : st.cached with
  | none => rfl
  | some c =>
    have hcc := hcache c hc
    simp [hcc]

/-- C3: with retry count `r` and no valid cached connection,
`getKDBConnection` makes at most `r + 1` connect attempts; when attempt `a`
is the first to succeed it stops after exactly `a` attempts having slept
`1000·1, …, 1000·(a-1)` ms between consecutive failed attempts and returns
the freshly constructed connection; when every attempt fails it makes all
`r + 1` attempts with sleeps `1000·1, …, 1000·r`. -/
theorem getKDBConnection_retry_behavior (st : KState) (retry : Nat)
    (fail : Nat → Option Err)
    (hcache : ∀ c, st.cached = some c → c.connected = false) :
    (getKDBConnection st retry fail).attempts ≤ retry + 1 ∧
    (∀ a, 1 ≤ a → a ≤ retry + 1 → fail a = none →
      (∀ b, 1 ≤ b → b < a → fail b ≠ none) →
      (getKDBConnection st retry fail).result =
          .ok { id := st.nextId, connected := false } ∧
        (getKDBConnection st retry fail).attempts = a ∧
        (getKDBConnection st retry fail).sleeps = backoffFrom 1 (a - 1)) ∧
    ((∀ b, 1 ≤ b → b ≤ retry + 1 → fail b ≠ none) →
      (getKDBConnection st retry fail).attempts = retry + 1 ∧
      (getKDBConnection st retry fail).sleeps = backoffFrom 1 retry) := by
  rw [getKDBConnection_no_cache st retry fail hcache]
  unfold freshAcquire
  dsimp only
  refine ⟨?_, ?_, ?_⟩
  · exact connectLoop_attempts_le fail _ (retry + 1) (retry + 1) 1 none
  · intro a h1 h2 hfa hprev
    rw [connectLoop_first_success fail _ (retry + 1) a hfa h2 (retry + 1) 1 none
      (by omega) h1 (fun b hb1 hb2 => hprev b hb1 hb2)]
    refine ⟨rfl, ?_, rfl⟩
    show a + 1 - 1 = a
    omega
  · intro hall
    have hfe : ∃ e, fail (retry + 1) = some e := by
      cases hfx : fail (retry + 1) with
      | none => exact absurd hfx (hall (retry + 1) (by omega) (Nat.le_refl _))
      | some e => exact ⟨e, rfl⟩
    obtain ⟨e, he⟩ := hfe
    rw [connectLoop_all_fail fail _ (retry + 1) e he (retry + 1) 1 none
      (by omega) (by omega) (fun b hb1 hb2 => hall b hb1 hb2)]
    exact ⟨rfl, rfl⟩

/-- Concrete instance of the retry theorem: with `retry = 2` and the first
attempt failing, the second attempt succeeds, two attempts in total are
made (within the cap of three) with one 1000 ms sleep in between. -/
theorem getKDBConnection_retry_behavior_witness :
    (getKDBConnection { cached := none, nextId := 0 } 2
        (fun a => if a = 1 then some (str "refused") else none)).attempts ≤ 3 ∧
    ((getKDBConnection { cached := none, nextId := 0 } 2
        (fun a => if a = 1 then some (str "refused") else none)).result =
        .ok { id := 0, connected := false } ∧
      (getKDBConnection { cached := none, nextId := 0 } 2
        (fun a => if a = 1 then some (str "refused") else none)).attempts = 2 ∧
      (getKDBConnection { cached := none, nextId := 0 } 2
        (fun a => if a = 1 then some (str "refused") else none)).sleeps =
        backoffFrom 1 1) :=
  have h := getKDBConnection_retry_behavior { cached := none, nextId := 0 } 2
    (fun a => if a = 1 then some (str "refused") else none)
    (fun c hc => Option.noConfusion hc)
  ⟨h.1, h.2.1 2 (by omega) (by omega) (by decide)
    (fun b hb1 hb2 => by
      have hb : b = 1 := by omega
      subst hb
      simp)⟩

/-- C4 counterexample: with `retry = 2` and every attempt failing with the
error "boom", `getKDBConnection` surfaces exactly the raw error "boom",
whose text does not contain the target `host:port` (`127.0.0.1:5000`): the
surfaced error is not annotated with the connection target. -/
theorem getKDBConnection_error_lacks_hostport :
    (getKDBConnection { cached := none, nextId := 0 } 2
        (fun _ => some (str "boom"))).result = .error (str "boom") ∧
    strIncludes (str "boom") (hostPortStr (str "127.0.0.1") 5000) = false := by
  exact ⟨rfl, rfl⟩

/-- C4 (amended): when all `retry + 1` connect attempts fail,
`getKDBConnection` surfaces the last attempt's error unchanged — the target
`host:port` appears only in the log line, not on the thrown error. -/
theorem getKDBConnection_exhaustion_surfaces_last_error (st : KState) (retry : Nat)
    (fail : Nat → Option Err) (errs : Nat → Err)
    (hcache : ∀ c, st.cached = some c → c.connected = false)
    (hfail : ∀ b, 1 ≤ b → b ≤ retry + 1 → fail b = some (errs b)) :
    (getKDBConnection st retry fail).result = .error (errs (retry + 1)) := by
  rw [getKDBConnection_no_cache st retry fail hcache]
  unfold freshAcquire
  dsimp only
  rw [connectLoop_all_fail fail _ (retry + 1) (errs (retry + 1))
    (hfail (retry + 1) (by omega) (Nat.le_refl _)) (retry + 1) 1 none
    (by omega) (by omega)
    (fun b hb1 hb2 => by rw [hfail b hb1 hb2]; simp)]

/-- Concrete instance of the exhaustion theorem: each attempt `b` fails
with the error `natStr b`; the surfaced error is that of the last attempt,
attempt 2. -/
theorem getKDBConnection_exhaustion_witness :
    (getKDBConnection { cached := none, nextId := 0 } 1
        (fun b => some (natStr b))).result = .error (natStr 2) :=
  getKDBConnection_exhaustion_surfaces_last_error { cached := none, nextId := 0 } 1
    (fun b => some (natStr b)) (fun b => natStr b)
    (fun _c hc => Option.noConfusion hc)
    (fun _b _hb1 _hb2 => rfl)

/-- C5: `cleanupKDBConnection` is idempotent, nulls out the process-wide
connection cache, and after it runs the next `getKDBConnection` takes the
fresh connect sequence (never returning a previously cached handle). -/
theorem cleanupKDBConnection_idempotent_fresh_reconnect (st : KState) (retry : Nat)
    (fail : Nat → Option Err) :
    cleanupKDBConnection (cleanupKDBConnection st) = cleanupKDBConnection st ∧
    (cleanupKDBConnection st).cached = none ∧
    (getKDBConnection (cleanupKDBConnection st) retry fail).usedCache = false ∧
    getKDBConnection (cleanupKDBConnection st) retry fail =
      freshAcquire (cleanupKDBConnection st) retry fail := by
  have hnc : (cleanupKDBConnection st).cached = none := by
    unfold cleanupKDBConnection
    cases hc : st.cached with
    | none => exact hc
    | some c => rfl
  have hfresh : getKDBConnection (cleanupKDBConnection st) retry fail =
      freshAcquire (cleanupKDBConnection st) retry fail :=
    getKDBConnection_no_cache _ retry fail
      (fun c hcc => by rw [hnc] at hcc; exact Option.noConfusion hcc)
  have hid0 : ∀ s : KState, s.cached = none → cleanupKDBConnection s = s := by
    intro s hs
    unfold cleanupKDBConnection
    rw [hs]
  have hidem := hid0 _ hnc
  refine ⟨hidem, hnc, ?_, hfresh⟩
  rw [hfresh]
  rfl

/-- C6: `getEmbeddingConfig` maps the single matching row 1:1 onto the
`EmbeddingConfig` record when exactly one configuration row's `table` field
equals the requested name, and fails with an error when zero rows match or
when more than one row matches — ambiguity is never silently resolved. -/
theorem getEmbeddingConfig_spec (table : Str) (df : List CsvRow) :
    (∀ row, matchingRows table df = [row] →
      getEmbeddingConfig table df = .ok (mapCsvRow row)) ∧
    (matchingRows table df = [] →
      getEmbeddingConfig table df = .error (noConfigMsg table)) ∧
    (2 ≤ (matchingRows table df).length →
      getEmbeddingConfig table df = .error (multiConfigMsg table)) := by
  refine ⟨?_, ?_, ?_⟩
  · intro row h
    unfold getEmbeddingConfig
    rw [h]
  · intro h
    unfold getEmbeddingConfig
    rw [h]
  · intro h
    match hm : matchingRows table df with
    | [] => rw [hm] at h; exact absurd h (by simp)
    | [row] => rw [hm] at h; exact absurd h (by simp)
    | r1 :: r2 :: rest =>
      unfold getEmbeddingConfig
      rw [hm]

/-- Concrete instance of the lookup theorem: one matching row resolves to
its mapped configuration; an unknown table and a duplicated row both
fail. -/
theorem getEmbeddingConfig_spec_witness :
    getEmbeddingConfig (str "docs") [docsCsvRow] = .ok (mapCsvRow docsCsvRow) ∧
    getEmbeddingConfig (str "ghost") [docsCsvRow] =
      .error (noConfigMsg (str "ghost")) ∧
    getEmbeddingConfig (str "docs") [docsCsvRow, docsCsvRow] =
      .error (multiConfigMsg (str "docs")) :=
  ⟨(getEmbeddingConfig_spec (str "docs") [docsCsvRow]).1 docsCsvRow (by decide),
   (getEmbeddingConfig_spec (str "ghost") [docsCsvRow]).2.1 (by decide),
   (getEmbeddingConfig_spec (str "docs") [docsCsvRow, docsCsvRow]).2.2 (by decide)⟩

/-- C7: when the resolved embedding configuration has no sparse index name,
hybrid search returns the success-shaped error result
`{status: error, message about the missing sparse index, table}` without
throwing, and its trace shows no provider lookup, no dense or sparse
embedding computation, and no connection or remote search call. -/
theorem kdbxHybridSearch_missing_sparse_index (tableName : Str) (df : List CsvRow)
    (eff : HybridEffects) (cfg : EmbeddingConfig)
    (hc : getEmbeddingConfig tableName df = .ok cfg)
    (hs : jsTruthy cfg.sparseIndexName = false) :
    kdbxHybridSearchImpl tableName df eff =
      ({ status := .error, table := some tableName, recordsCount := none
         records := none, message := some sparseSoftMsg }, emptyTrace) := by
  unfold kdbxHybridSearchImpl
  rw [hc]
  simp [hs, sparseSoftResult]

/-- Concrete instance of the missing-sparse-index theorem, on the "docs"
configuration (which has no sparse index), with every external call
available. -/
theorem kdbxHybridSearch_missing_sparse_index_witness :
    kdbxHybridSearchImpl (str "docs") [docsCsvRow] benignEffects =
      ({ status := .error, table := some (str "docs"), recordsCount := none
         records := none, message := some sparseSoftMsg }, emptyTrace) :=
  kdbxHybridSearch_missing_sparse_index (str "docs") [docsCsvRow] benignEffects
    (mapCsvRow docsCsvRow) rfl (by decide)

/-- C9: for a table with no configuration row at all, hybrid search does
not produce the sparse-index soft-failure message: the lookup error is
caught and stringified into the result
(`Error: No configuration found for table=...`), again with no provider,
embedding, or database call. -/
theorem kdbxHybridSearch_unconfigured_table (tableName : Str) (df : List CsvRow)
    (eff : HybridEffects)
    (h : matchingRows tableName df = []) :
    kdbxHybridSearchImpl tableName df eff =
      ({ status := .error, table := some tableName, recordsCount := none
         records := none, message := some (jsErrString (noConfigMsg tableName)) },
       emptyTrace) ∧
    jsErrString (noConfigMsg tableName) ≠ sparseSoftMsg := by
  constructor
  · have herr : getEmbeddingConfig tableName df = .error (noConfigMsg tableName) := by
      unfold getEmbeddingConfig
      rw [h]
    unfold kdbxHybridSearchImpl
    rw [herr]
    rfl
  · intro hbad
    have h1 : (jsErrString (noConfigMsg tableName)).head? = some (Char.ofNat 69) := rfl
    have h2 : sparseSoftMsg.head? = some (Char.ofNat 84) := rfl
    rw [hbad, h2] at h1
    exact absurd (Option.some.inj h1) (by decide)

/-- Concrete instance of the unconfigured-table theorem: an empty
embeddings CSV yields the stringified lookup error, not the sparse-index
message. -/
theorem kdbxHybridSearch_unconfigured_table_witness :
    kdbxHybridSearchImpl (str "ghost") [] benignEffects =
      ({ status := .error, table := some (str "ghost"), recordsCount := none
         records := none
         message := some (jsErrString (noConfigMsg (str "ghost"))) }, emptyTrace) ∧
    jsErrString (noConfigMsg (str "ghost")) ≠ sparseSoftMsg :=
  kdbxHybridSearch_unconfigured_table (str "ghost") [] benignEffects rfl

/-- Deleting a column removes it: the key is absent afterwards. -/
theorem hasKey_eraseKey_self (k : Str) (row : Row) :
    hasKey (eraseKey k row) k = false := by
  unfold hasKey eraseKey
  rw [List.any_filter]
  simp

/-- Deleting one column cannot make another column appear. -/
theorem hasKey_eraseKey_absent (k k2 : Str) (row : Row)
    (h : hasKey row k2 = false) : hasKey (eraseKey k row) k2 = false := by
  unfold hasKey at h
  unfold hasKey eraseKey
  rw [List.any_filter]
  rw [List.any_eq_false] at h ⊢
  intro kv hkv
  have h2 := h kv hkv
  simp only [Bool.not_eq_true] at h2
  simp [h2]

/-- A delete block with a falsy configured column is the identity. -/
theorem delStep_falsy (c : Option Str) (row : Row) (h : jsTruthy c = false) :
    delStep c row = row := by
  unfold delStep
  rw [h]
  simp

/-- A delete block whose column is absent is the identity. -/
theorem delStep_absent (c : Option Str) (row : Row)
    (h : hasKey row (c.getD []) = false) : delStep c row = row := by
  unfold delStep
  rw [h]
  simp

/-- After a delete block with a truthy configured column, that column is
absent. -/
theorem hasKey_delStep_self (c : Option Str) (row : Row) (ht : jsTruthy c = true) :
    hasKey (delStep c row) (c.getD []) = false := by
  unfold delStep
  rw [ht]
  simp only [Bool.true_and]
  cases hk : hasKey row (c.getD []) with
  | false => rw [if_neg (by simp [hk])]; exact hk
  | true => rw [if_pos (by simp [hk])]; exact hasKey_eraseKey_self _ _

/-- A delete block never makes an absent column appear. -/
theorem hasKey_delStep_absent (c : Option Str) (k : Str) (row : Row)
    (h : hasKey row k = false) : hasKey (delStep c row) k = false := by
  unfold delStep
  split
  · exact hasKey_eraseKey_absent _ _ _ h
  · exact h

/-- A delete block is idempotent. -/
theorem delStep_idem (c : Option Str) (row : Row) :
    delStep c (delStep c row) = delStep c row := by
  cases ht : jsTruthy c with
  | false => rw [delStep_falsy c _ ht, delStep_falsy c _ ht]
  | true => exact delStep_absent c _ (hasKey_delStep_self c row ht)

/-- The per-row column removal is idempotent. -/
theorem removeRow_idem (ec sc : Option Str) (row : Row) :
    removeRow ec sc (removeRow ec sc row) = removeRow ec sc row := by
  unfold removeRow
  have hec : delStep ec (delStep sc (delStep ec row)) = delStep sc (delStep ec row) := by
    cases ht : jsTruthy ec with
    | false => exact delStep_falsy ec _ ht
    | true =>
      exact delStep_absent ec _
        (hasKey_delStep_absent sc _ _ (hasKey_delStep_self ec row ht))
  rw [hec]
  exact delStep_idem sc _

/-- C8: stripping vector columns is idempotent — for every row list, table
name and configuration, applying `removeVectorColumns` twice yields exactly
the output of applying it once (in both the configured and the
lookup-failure branch). -/
theorem removeVectorColumns_idempotent (data : List Row) (tableName : Str)
    (df : List CsvRow) :
    removeVectorColumns (removeVectorColumns data tableName df) tableName df =
      removeVectorColumns data tableName df := by
  cases h : getEmbeddingConfig tableName df with
  | error e =>
    unfold removeVectorColumns
    rw [h]
  | ok cfg =>
    unfold removeVectorColumns
    rw [h]
    dsimp only
    rw [List.map_map]
    congr 1
    funext row
    exact removeRow_idem cfg.embeddingColumn cfg.sparseEmbeddingColumn row

/-- A truthy delete block equals a filter on the configured key, whether or
not the key is present. -/
theorem delStep_eq_filter (c : Option Str) (row : Row) (ht : jsTruthy c = true) :
    delStep c row = row.filter (fun kv => !(kv.1 == c.getD [])) := by
  unfold delStep
  rw [ht]
  simp only [Bool.true_and]
  cases hk : hasKey row (c.getD []) with
  | true => rw [if_pos (by simp [hk])]; rfl
  | false =>
    rw [if_neg (by simp [hk])]
    symm
    rw [List.filter_eq_self]
    intro kv hkv
    unfold hasKey at hk
    rw [List.any_eq_false] at hk
    have := hk kv hkv
    simpa using this

/-- The per-row removal keeps, in order, exactly the columns whose name is
not a configured (truthy) dense or sparse embedding column. -/
theorem removeRow_eq_filter (ec sc : Option Str) (row : Row) :
    removeRow ec sc row = row.filter (fun kv => !removedKeys ec sc kv.1) := by
  unfold removeRow
  cases htec : jsTruthy ec with
  | false =>
    rw [delStep_falsy ec _ htec]
    cases htsc : jsTruthy sc with
    | false =>
      rw [delStep_falsy sc _ htsc]
      symm
      rw [List.filter_eq_self]
      intro kv _
      simp [removedKeys, htec, htsc]
    | true =>
      rw [delStep_eq_filter sc _ htsc]
      apply List.filter_congr
      intro kv _
      simp [removedKeys, htec, htsc]
  | true =>
    rw [delStep_eq_filter ec _ htec]
    cases htsc : jsTruthy sc with
    | false =>
      rw [delStep_falsy sc _ htsc]
      apply List.filter_congr
      intro kv _
      simp [removedKeys, htec, htsc]
    | true =>
      rw [delStep_eq_filter sc _ htsc, List.filter_filter]
      apply List.filter_congr
      intro kv _
      cases h1 : kv.1 == ec.getD [] <;> cases h2 : kv.1 == sc.getD [] <;>
        simp [removedKeys, htec, htsc, h1, h2]

/-- Indexing stays in the left part of an append. -/
theorem getD_append_left {α : Type} (l1 l2 : List α) (i : Nat) (d : α)
    (h : i < l1.length) : (l1 ++ l2).getD i d = l1.getD i d := by
  rw [List.getD_eq_getElem?_getD, List.getD_eq_getElem?_getD, List.getElem?_append,
    if_pos h]

/-- Indexing an appended singleton at the boundary yields the new
element. -/
theorem getD_append_len {α : Type} (l1 : List α) (r : α) (d : α) :
    (l1 ++ [r]).getD l1.length d = r := by
  rw [List.getD_eq_getElem?_getD, List.getElem?_append_right (Nat.le_refl _)]
  simp

/-- The element fetched by `getD` at a valid index is a member. -/
theorem getD_mem_of_lt {α : Type} (l : List α) (n : Nat) (d : α)
    (h : n < l.length) : l.getD n d ∈ l := by
  rw [List.getD_eq_getElem?_getD, List.getElem?_eq_getElem h]
  exact List.getElem_mem h

/-- Behaviour of the allocation pass of the heap model: the input heap is
preserved as a prefix (no input object mutated), one fresh address is
returned per input address, and each freshly allocated object holds the
column-stripped copy of the corresponding input row. -/
theorem rvcHeapGo_spec (ec sc : Option Str) :
    ∀ ids heap, (∀ i ∈ ids, i < heap.length) →
      (∃ ext, (rvcHeapGo ec sc heap ids).1 = heap ++ ext) ∧
      (rvcHeapGo ec sc heap ids).2.length = ids.length ∧
      (∀ j, j < ids.length →
        heap.length ≤ (rvcHeapGo ec sc heap ids).2.getD j 0 ∧
        (rvcHeapGo ec sc heap ids).1.getD ((rvcHeapGo ec sc heap ids).2.getD j 0) [] =
          removeRow ec sc (heap.getD (ids.getD j 0) [])) := by
  intro ids
  induction ids with
  | nil =>
    intro heap _
    refine ⟨⟨[], by simp [rvcHeapGo]⟩, by simp [rvcHeapGo], ?_⟩
    intro j hj
    exact absurd hj (by simp)
  | cons id rest ih =>
    intro heap hvalid
    have hid : id < heap.length := hvalid id (by simp)
    have hvalid1 : ∀ i ∈ rest,
        i < (heap ++ [removeRow ec sc (heap.getD id [])]).length := by
      intro i hi
      have := hvalid i (by simp [hi])
      rw [List.length_append]
      omega
    obtain ⟨⟨ext, hext⟩, hlen, hcontent⟩ :=
      ih (heap ++ [removeRow ec sc (heap.getD id [])]) hvalid1
    have hstep : rvcHeapGo ec sc heap (id :: rest) =
        ((rvcHeapGo ec sc (heap ++ [removeRow ec sc (heap.getD id [])]) rest).1,
         heap.length ::
           (rvcHeapGo ec sc (heap ++ [removeRow ec sc (heap.getD id [])]) rest).2) := rfl
    rw [hstep]
    refine ⟨⟨[removeRow ec sc (heap.getD id [])] ++ ext, by
      rw [hext]; rw [List.append_assoc]⟩, by simpa using hlen, ?_⟩
    intro j hj
    cases j with
    | zero =>
      refine ⟨by simp, ?_⟩
      show (rvcHeapGo ec sc (heap ++ [removeRow ec sc (heap.getD id [])]) rest).1.getD
          heap.length [] = removeRow ec sc (heap.getD id [])
      rw [hext]
      rw [getD_append_left _ ext heap.length []
        (by rw [List.length_append]; simp)]
      exact getD_append_len heap _ []
    | succ n =>
      have hn : n < rest.length := by simpa using hj
      obtain ⟨hfresh, hcont⟩ := hcontent n hn
      have hlen1 : (heap ++ [removeRow ec sc (heap.getD id [])]).length =
          heap.length + 1 := by
        rw [List.length_append]
        rfl
      refine ⟨?_, ?_⟩
      · show heap.length ≤
          (rvcHeapGo ec sc (heap ++ [removeRow ec sc (heap.getD id [])]) rest).2.getD n 0
        rw [hlen1] at hfresh
        omega
      · show (rvcHeapGo ec sc (heap ++ [removeRow ec sc (heap.getD id [])]) rest).1.getD
          ((rvcHeapGo ec sc (heap ++ [removeRow ec sc (heap.getD id [])]) rest).2.getD n 0)
          [] = removeRow ec sc (heap.getD (rest.getD n 0) [])
        rw [hcont]
        have hrmem : rest.getD n 0 ∈ rest := getD_mem_of_lt rest n 0 hn
        have hrlt : rest.getD n 0 < heap.length :=
          hvalid _ (List.mem_cons_of_mem id hrmem)
        rw [getD_append_left heap _ _ [] hrlt]

/-- C10 counterexample: when the embedding-config lookup fails (here: empty
embeddings CSV), `removeVectorColumns` returns the input array with the
original row objects — the single output address is the input address 0,
which is not a fresh allocation (not beyond the original heap of size 1).
So not every output row is a freshly copied object. -/
theorem removeVectorColumnsHeap_fallback_not_fresh :
    (removeVectorColumnsHeap specimenHeap [0] (str "ghost") []).2 = [0] ∧
    (removeVectorColumnsHeap specimenHeap [0] (str "ghost") []).1 = specimenHeap ∧
    ¬ specimenHeap.length ≤
        (removeVectorColumnsHeap specimenHeap [0] (str "ghost") []).2.getD 0 0 := by
  refine ⟨rfl, rfl, ?_⟩
  decide

/-- C10 (amended): `removeVectorColumns` never mutates the rows it was
given — the original heap is preserved as a prefix in every branch.  When
the embedding-config lookup succeeds, every output row is a freshly
allocated copy (address beyond the input heap) equal to its input row
filtered to the columns other than the configured dense and sparse
embedding columns, keeping their original values and insertion order;
when the lookup fails, the input addresses are returned unchanged. -/
theorem removeVectorColumnsHeap_frame (heap : List Row) (ids : List Nat)
    (tableName : Str) (df : List CsvRow)
    (hvalid : ∀ i ∈ ids, i < heap.length) :
    (∃ ext, (removeVectorColumnsHeap heap ids tableName df).1 = heap ++ ext) ∧
    (∀ e, getEmbeddingConfig tableName df = .error e →
      removeVectorColumnsHeap heap ids tableName df = (heap, ids)) ∧
    (∀ cfg, getEmbeddingConfig tableName df = .ok cfg →
      (removeVectorColumnsHeap heap ids tableName df).2.length = ids.length ∧
      ∀ j, j < ids.length →
        heap.length ≤ (removeVectorColumnsHeap heap ids tableName df).2.getD j 0 ∧
        (removeVectorColumnsHeap heap ids tableName df).1.getD
            ((removeVectorColumnsHeap heap ids tableName df).2.getD j 0) [] =
          (heap.getD (ids.getD j 0) []).filter
            (fun kv =>
              !removedKeys cfg.embeddingColumn cfg.sparseEmbeddingColumn kv.1)) := by
  cases h : getEmbeddingConfig tableName df with
  | error e =>
    have hout : removeVectorColumnsHeap heap ids tableName df = (heap, ids) := by
      unfold removeVectorColumnsHeap
      rw [h]
    refine ⟨⟨[], by rw [hout]; simp⟩, fun _ _ => hout, ?_⟩
    intro cfg hcfg
    exact Except.noConfusion hcfg
  | ok cfg0 =>
    have hout : removeVectorColumnsHeap heap ids tableName df =
        rvcHeapGo cfg0.embeddingColumn cfg0.sparseEmbeddingColumn heap ids := by
      unfold removeVectorColumnsHeap
      rw [h]
    obtain ⟨hpre, hlen, hcontent⟩ :=
      rvcHeapGo_spec cfg0.embeddingColumn cfg0.sparseEmbeddingColumn ids heap hvalid
    refine ⟨by rw [hout]; exact hpre, ?_, ?_⟩
    · intro e he
      exact Except.noConfusion he
    · intro cfg hcfg
      cases Except.ok.inj hcfg
      refine ⟨by rw [hout]; exact hlen, ?_⟩
      intro j hj
      obtain ⟨hfresh, hcont⟩ := hcontent j hj
      rw [hout]
      exact ⟨hfresh, by rw [hcont, removeRow_eq_filter]⟩

/-- Concrete instance of the frame theorem, on the one-row specimen heap
and the "docs" configuration (dense column "vec"). -/
theorem removeVectorColumnsHeap_frame_witness :
    (∃ ext, (removeVectorColumnsHeap specimenHeap [0] (str "docs") [docsCsvRow]).1 =
      specimenHeap ++ ext) ∧
    (∀ e, getEmbeddingConfig (str "docs") [docsCsvRow] = .error e →
      removeVectorColumnsHeap specimenHeap [0] (str "docs") [docsCsvRow] =
        (specimenHeap, [0])) ∧
    (∀ cfg, getEmbeddingConfig (str "docs") [docsCsvRow] = .ok cfg →
      (removeVectorColumnsHeap specimenHeap [0] (str "docs") [docsCsvRow]).2.length =
        ([0] : List Nat).length ∧
      ∀ j, j < ([0] : List Nat).length →
        specimenHeap.length ≤
          (removeVectorColumnsHeap specimenHeap [0] (str "docs") [docsCsvRow]).2.getD j 0 ∧
        (removeVectorColumnsHeap specimenHeap [0] (str "docs") [docsCsvRow]).1.getD
            ((removeVectorColumnsHeap specimenHeap [0] (str "docs")
              [docsCsvRow]).2.getD j 0) [] =
          (specimenHeap.getD (([0] : List Nat).getD j 0) []).filter
            (fun kv =>
              !removedKeys cfg.embeddingColumn cfg.sparseEmbeddingColumn kv.1)) :=
  removeVectorColumnsHeap_frame specimenHeap [0] (str "docs") [docsCsvRow] (by decide)

end KdbxMcp
